import Mathlib

/-!
# Verification of the legal-chatbot backend (src/backend/server.py)

A shallow embedding of the chat-session persistence core of the backend:
the `ChatMessage` data model, the `POST /chat` handler (`chat`), the
history endpoint (`get_chat_history`) and the bulk delete endpoint
(`clear_chat_history`), together with the pydantic request validation
(`ChatRequest`) and the MongoDB collection `db.chat_messages`, modelled
as an insertion-ordered list of documents.

External collaborators are modelled explicitly:
  * the MongoDB collection is a `List StoredDoc`; `insert_one` appends,
    `find(...).sort("timestamp", 1).to_list(1000)` filters, stably sorts
    by the stored timestamp field and truncates to 1000,
    `delete_many` filters out the matching documents;
  * Python `datetime` values are tick counts (`Nat`); the external
    library pair `isoformat` / `fromisoformat` is modelled as an
    injective, order-preserving (for the lexicographic order that the
    store uses to compare string fields) string encoding of the ticks
    together with its inverse — exactly the properties of ISO-8601
    rendering of UTC datetimes that the program relies on;
  * the LLM call (`LlmChat.send_message`) and the two `insert_one`
    calls can each fail by raising; their outcomes for one request are
    supplied in a `ChatEnv` record, together with the generated UUIDs
    and the two `datetime.now(timezone.utc)` readings.
-/

/-- Model of `datetime.isoformat`: an injective, order-preserving,
parseable string rendering of the datetime.  (The concrete encoding
stands in for the external library; the program only relies on the
rendering being a string that `fromisoformat` inverts and whose
lexicographic order agrees with the chronological order.) -/
def isoformat (t : Nat) : String :=
  String.mk (List.replicate (t + 1) 'T')

/-- Model of `datetime.fromisoformat`: inverts `isoformat`, and fails
(`none`, i.e. raises `ValueError`) on any string that is not an
`isoformat` rendering. -/
def fromisoformat (s : String) : Option Nat :=
  if s.data ≠ [] ∧ s.data.all (fun c => c == 'T') then some (s.data.length - 1)
  else none

/-- The value stored in the `timestamp` field of a document: either a
native datetime (never produced by this program, which always converts
to a string before inserting) or a string. -/
inductive StoredTime where
  | dt (t : Nat)
  | str (s : String)
deriving DecidableEq, Repr

/-- The pydantic model `ChatMessage` (server.py:31-38): one persisted
conversation turn.  `id` and `timestamp` are filled from default
factories (`uuid4`, `datetime.now(timezone.utc)`) at construction. -/
structure ChatMessage where
  id : String
  session_id : String
  role : String
  message : String
  timestamp : Nat
deriving DecidableEq, Repr

/-- A document of the `chat_messages` collection: the `model_dump` of a
`ChatMessage` whose `timestamp` field has been replaced by its
`isoformat` string (server.py:78-79, 101-102), or — in an arbitrary
store — any document shape the collection could hold. -/
structure StoredDoc where
  id : String
  session_id : String
  role : String
  message : String
  timestamp : StoredTime
deriving DecidableEq, Repr

/-- The `chat_messages` collection, in insertion order. -/
abbrev Store := List StoredDoc

/-- Dump of a message into a document: `model_dump()` followed by
replacing the `timestamp` value by its `isoformat` string
(server.py:78-79, 101-102). -/
def ChatMessage.toDoc (m : ChatMessage) : StoredDoc :=
  { id := m.id, session_id := m.session_id, role := m.role,
    message := m.message, timestamp := .str (isoformat m.timestamp) }

/-- Lexicographic (bytewise) comparison of strings as lists of
characters, as the store orders string-valued fields. -/
def lexLe : List Char → List Char → Bool
  | [], _ => true
  | _ :: _, [] => false
  | a :: as, b :: bs =>
    if a.toNat < b.toNat then true
    else if b.toNat < a.toNat then false
    else lexLe as bs

/-- The store's ordering of `timestamp` field values (BSON type order
puts strings before dates; within strings, bytewise comparison). -/
def storedTimeLE : StoredTime → StoredTime → Bool
  | .str a, .str b => lexLe a.data b.data
  | .str _, .dt _ => true
  | .dt _, .str _ => false
  | .dt a, .dt b => a ≤ b

/-- Comparator for `.sort("timestamp", 1)`. -/
def docLE (a b : StoredDoc) : Bool :=
  storedTimeLE a.timestamp b.timestamp

/-- The pydantic request model `ChatRequest` (server.py:40-42) after
successful validation. -/
structure ChatRequest where
  session_id : String
  message : String
deriving DecidableEq, Repr

/-- The response model `ChatResponse` (server.py:44-46). -/
structure ChatResponse where
  response : String
  session_id : String
deriving DecidableEq, Repr

/-- A JSON field value of the raw request body, as far as validation
cares: a JSON string, or anything else. -/
inductive JsonField where
  | strVal (s : String)
  | otherVal
deriving DecidableEq, Repr

/-- The raw `POST /chat` body before pydantic validation: each of the
two declared fields is absent or holds some JSON value. -/
structure RawChatRequest where
  session_id : Option JsonField
  message : Option JsonField
deriving DecidableEq, Repr

/-- Pydantic validation of `ChatRequest` (server.py:40-42): each field
must be present and be a string; nothing else is checked (in
particular, the empty string is accepted). Failure is FastAPI's 422
validation error, issued before the handler body runs. -/
def parseChatRequest (r : RawChatRequest) : Except String ChatRequest :=
  match r.session_id, r.message with
  | some (.strVal sid), some (.strVal msg) =>
    .ok { session_id := sid, message := msg }
  | _, _ => .error "validation error"

deriving instance DecidableEq for Except

/-- The per-request environment of the `chat` handler: the UUIDs and
clock readings drawn by the two `ChatMessage` default factories, and
the outcomes of the three external calls that can raise
(`insert_one` for the user document, `send_message`, `insert_one` for
the assistant document).  `none` means the call succeeds; `some e`
means it raises with message `e`.  The gateway outcome carries the
completion text on success. -/
structure ChatEnv where
  userId : String
  assistantId : String
  userTime : Nat
  assistantTime : Nat
  userInsertErr : Option String
  gateway : Except String String
  assistantInsertErr : Option String
deriving DecidableEq, Repr

/-- Result of an API call: a 200 body or an HTTP error status with a
detail string (FastAPI `HTTPException` / validation response). -/
inductive ChatResult where
  | ok (resp : ChatResponse)
  | error (status : Nat) (detail : String)
deriving DecidableEq, Repr

/-- The local `user_msg` of the handler (server.py:73-77): a
`ChatMessage` with `role="user"` and the request text, with `id` and
`timestamp` from the default factories. -/
def user_msg (env : ChatEnv) (req : ChatRequest) : ChatMessage :=
  { id := env.userId, session_id := req.session_id, role := "user",
    message := req.message, timestamp := env.userTime }

/-- The local `assistant_msg` of the handler (server.py:96-100): a
`ChatMessage` with `role="assistant"` and the completion text. -/
def assistant_msg (env : ChatEnv) (req : ChatRequest)
    (ai_response : String) : ChatMessage :=
  { id := env.assistantId, session_id := req.session_id,
    role := "assistant", message := ai_response,
    timestamp := env.assistantTime }

/-- The `POST /chat` handler body (server.py:70-111), after validation:
build and insert the user turn, call the model, build and insert the
assistant turn, return the completion; any raise is caught and turned
into a 500 with detail `"Chat error: ..."` (server.py:109-111). -/
def chat (env : ChatEnv) (req : ChatRequest) (store : Store) :
    ChatResult × Store :=
  let user_doc := (user_msg env req).toDoc
  match env.userInsertErr with
  | some e => (.error 500 ("Chat error: " ++ e), store)
  | none =>
    let store1 := store ++ [user_doc]
    match env.gateway with
    | .error e => (.error 500 ("Chat error: " ++ e), store1)
    | .ok ai_response =>
      let assistant_doc := (assistant_msg env req ai_response).toDoc
      match env.assistantInsertErr with
      | some e => (.error 500 ("Chat error: " ++ e), store1)
      | none =>
        (.ok { response := ai_response, session_id := req.session_id },
         store1 ++ [assistant_doc])

/-- The `POST /chat` endpoint including pydantic validation of the raw
body: validation failure returns 422 before the handler body runs, so
with no side effect on the store. -/
def chatEndpoint (env : ChatEnv) (raw : RawChatRequest) (store : Store) :
    ChatResult × Store :=
  match parseChatRequest raw with
  | .error e => (.error 422 e, store)
  | .ok req => chat env req store

/-- Conversion of a stored document back to a `ChatMessage` with the
given decoded timestamp (the response model of the history endpoint). -/
def StoredDoc.toMsg (d : StoredDoc) (t : Nat) : ChatMessage :=
  { id := d.id, session_id := d.session_id, role := d.role,
    message := d.message, timestamp := t }

/-- The per-document timestamp conversion of the history loop
(server.py:122-124): a string timestamp is parsed with
`fromisoformat` (a `ValueError` propagates and becomes a 500); a
native datetime is kept as is. -/
def decodeDoc (d : StoredDoc) : Except String ChatMessage :=
  match d.timestamp with
  | .str s =>
    match fromisoformat s with
    | some t => .ok (d.toMsg t)
    | none => .error "Error fetching history: invalid isoformat string"
  | .dt t => .ok (d.toMsg t)

/-- The `GET /chat/history/{session_id}` handler (server.py:113-129):
filter by session, sort ascending by the stored `timestamp` field,
truncate to 1000, convert timestamps back; any raise is caught and
becomes a 500 (`.error`). -/
def get_chat_history (session_id : String) (store : Store) :
    Except String (List ChatMessage) :=
  let docs := store.filter fun d => d.session_id == session_id
  let docs := docs.mergeSort docLE
  let docs := docs.take 1000
  docs.mapM decodeDoc

/-- The response body of `DELETE /chat/history/{session_id}`
(server.py:135). -/
structure DeleteResponse where
  deleted_count : Nat
  session_id : String
deriving DecidableEq, Repr

/-- The `DELETE /chat/history/{session_id}` handler (server.py:131-138):
`delete_many({"session_id": sid})` removes every matching document and
reports how many were removed. -/
def clear_chat_history (session_id : String) (store : Store) :
    DeleteResponse × Store :=
  let deleted := (store.filter fun d => d.session_id == session_id).length
  ({ deleted_count := deleted, session_id := session_id },
   store.filter fun d => !(d.session_id == session_id))

/-- A document is well formed when its `timestamp` field is a parseable
isoformat string — the invariant maintained by every document this
program ever inserts. -/
def WFDoc (d : StoredDoc) : Bool :=
  match d.timestamp with
  | .str s => (fromisoformat s).isSome
  | .dt _ => false

/-- A store is well formed when every document in it is. -/
def WFStore (s : Store) : Prop :=
  ∀ d ∈ s, WFDoc d = true

instance : DecidablePred WFStore := fun s =>
  inferInstanceAs (Decidable (∀ d ∈ s, WFDoc d = true))

/-- The datetime a stored document decodes to (0 as a dummy on an
unparseable string; never hit on well-formed documents). -/
def decodeTime (d : StoredDoc) : Nat :=
  match d.timestamp with
  | .str s => (fromisoformat s).getD 0
  | .dt t => t

/-- Total decoding of a stored document, agreeing with `decodeDoc` on
well-formed documents. -/
def decodeTotal (d : StoredDoc) : ChatMessage :=
  d.toMsg (decodeTime d)

/-- The stores reachable by the program from an empty collection: the
chat endpoint and the delete endpoint are the only operations that
change the store. -/
inductive Reachable : Store → Prop where
  | init : Reachable []
  | step_chat (env : ChatEnv) (raw : RawChatRequest) {s : Store} :
      Reachable s → Reachable (chatEndpoint env raw s).2
  | step_delete (sid : String) {s : Store} :
      Reachable s → Reachable (clear_chat_history sid s).2

/-- Concrete environment for sample runs: both inserts and the gateway
call succeed, and the clock reads 0 then 1. -/
def envOK : ChatEnv :=
  { userId := "u1", assistantId := "a1", userTime := 0, assistantTime := 1,
    userInsertErr := none, gateway := .ok "ans", assistantInsertErr := none }

/-- Concrete environment in which the gateway call fails. -/
def envGwFail : ChatEnv :=
  { userId := "u1", assistantId := "a1", userTime := 0, assistantTime := 1,
    userInsertErr := none, gateway := .error "provider down",
    assistantInsertErr := none }

/-- Concrete environment in which the assistant-turn insert fails. -/
def envStFail : ChatEnv :=
  { userId := "u1", assistantId := "a1", userTime := 0, assistantTime := 1,
    userInsertErr := none, gateway := .ok "ans",
    assistantInsertErr := some "disk full" }

/-- Concrete validated request used in sample runs. -/
def reqHello : ChatRequest := { session_id := "s", message := "hello" }

/-- Concrete raw request body used in sample runs. -/
def rawHello : RawChatRequest :=
  { session_id := some (.strVal "s"), message := some (.strVal "hello") }

/-- Concrete store used in sample runs: two turns of session `s`
(inserted out of timestamp order) and one turn of session `t`. -/
def demoStore : Store :=
  [(ChatMessage.mk "i1" "s" "user" "m1" 1).toDoc,
   (ChatMessage.mk "i2" "s" "assistant" "m2" 0).toDoc,
   (ChatMessage.mk "i3" "t" "user" "m3" 0).toDoc]

theorem fromisoformat_isoformat (t : Nat) :
    fromisoformat (isoformat t) = some t := by
  simp [fromisoformat, isoformat, List.all_eq_true, List.mem_replicate]

theorem fromisoformat_some (s : String) (t : Nat)
    (h : fromisoformat s = some t) :
    s.data = List.replicate s.data.length 'T' ∧
      s.data.length = t + 1 := by
  unfold fromisoformat at h
  split at h
  case isTrue hc =>
    obtain ⟨hne, hall⟩ := hc
    have hrep : s.data = List.replicate s.data.length 'T' := by
      apply List.eq_replicate_of_mem
      intro b hb
      have := List.all_eq_true.mp hall b hb
      simpa [beq_iff_eq] using this
    have hlen : s.data.length ≠ 0 := by
      intro h0
      exact hne (List.eq_nil_of_length_eq_zero h0)
    refine ⟨hrep, ?_⟩
    have := Option.some.inj h
    omega
  case isFalse => exact absurd h (by simp)

theorem lexLe_cons (a b : Char) (as bs : List Char) :
    lexLe (a :: as) (b :: bs) = true ↔
      a.toNat < b.toNat ∨ (a.toNat = b.toNat ∧ lexLe as bs = true) := by
  simp only [lexLe]
  split_ifs with h₁ h₂
  · simp [h₁]
  · constructor
    · intro h
      exact absurd h (by simp)
    · rintro (h | ⟨h, -⟩) <;> omega
  · have heq : a.toNat = b.toNat := by omega
    simp [heq]

theorem lexLe_total : ∀ x y : List Char, lexLe x y = true ∨ lexLe y x = true
  | [], _ => Or.inl rfl
  | _ :: _, [] => Or.inr rfl
  | a :: as, b :: bs => by
    rcases Nat.lt_trichotomy a.toNat b.toNat with h | h | h
    · exact Or.inl ((lexLe_cons a b as bs).mpr (Or.inl h))
    · rcases lexLe_total as bs with ih | ih
      · exact Or.inl ((lexLe_cons a b as bs).mpr (Or.inr ⟨h, ih⟩))
      · exact Or.inr ((lexLe_cons b a bs as).mpr (Or.inr ⟨h.symm, ih⟩))
    · exact Or.inr ((lexLe_cons b a bs as).mpr (Or.inl h))

theorem lexLe_trans :
    ∀ x y z : List Char,
      lexLe x y = true → lexLe y z = true → lexLe x z = true
  | [], _, _, _, _ => rfl
  | _ :: _, [], _, h, _ => by simp [lexLe] at h
  | _ :: _, _ :: _, [], _, h => by simp [lexLe] at h
  | a :: as, b :: bs, c :: cs, h₁, h₂ => by
    rw [lexLe_cons] at h₁ h₂ ⊢
    rcases h₁ with h₁ | ⟨h₁, h₁t⟩ <;> rcases h₂ with h₂ | ⟨h₂, h₂t⟩
    · exact Or.inl (Nat.lt_trans h₁ h₂)
    · exact Or.inl (by omega)
    · exact Or.inl (by omega)
    · exact Or.inr ⟨by omega, lexLe_trans as bs cs h₁t h₂t⟩

theorem lexLe_replicate (c : Char) (m n : Nat) :
    lexLe (List.replicate m c) (List.replicate n c) = decide (m ≤ n) := by
  induction m generalizing n with
  | zero => simp [lexLe, List.replicate]
  | succ m ih =>
    cases n with
    | zero => simp [lexLe, List.replicate]
    | succ n =>
      simp only [List.replicate, lexLe, Nat.lt_irrefl, if_false, ih]
      simp

theorem storedTimeLE_total (a b : StoredTime) :
    storedTimeLE a b = true ∨ storedTimeLE b a = true := by
  cases a <;> cases b <;> simp [storedTimeLE]
  · exact Nat.le_total _ _
  · exact lexLe_total _ _

theorem storedTimeLE_trans (a b c : StoredTime)
    (h₁ : storedTimeLE a b = true) (h₂ : storedTimeLE b c = true) :
    storedTimeLE a c = true := by
  cases a <;> cases b <;> cases c <;>
    simp [storedTimeLE] at h₁ h₂ ⊢
  · exact Nat.le_trans h₁ h₂
  · exact lexLe_trans _ _ _ h₁ h₂

theorem docLE_total (a b : StoredDoc) : docLE a b || docLE b a := by
  rcases storedTimeLE_total a.timestamp b.timestamp with h | h <;>
    simp [docLE, h]

theorem docLE_trans (a b c : StoredDoc)
    (h₁ : docLE a b) (h₂ : docLE b c) : docLE a c :=
  storedTimeLE_trans _ _ _ h₁ h₂

theorem decodeDoc_of_wf (d : StoredDoc) (h : WFDoc d = true) :
    decodeDoc d = .ok (decodeTotal d) := by
  obtain ⟨i, sid, r, m, ts⟩ := d
  cases ts with
  | dt t => simp [WFDoc] at h
  | str s =>
    simp only [WFDoc] at h
    obtain ⟨t, ht⟩ := Option.isSome_iff_exists.mp h
    simp [decodeDoc, decodeTotal, decodeTime, ht]

theorem mapM_decode (l : List StoredDoc) (h : ∀ d ∈ l, WFDoc d = true) :
    l.mapM decodeDoc = .ok (l.map decodeTotal) := by
  induction l with
  | nil => rfl
  | cons d l ih =>
    have hd := h d (by simp)
    have hl : ∀ x ∈ l, WFDoc x = true := fun x hx => h x (by simp [hx])
    rw [List.mapM_cons, decodeDoc_of_wf d hd, ih hl]
    rfl

theorem docLE_iff_of_wf (a b : StoredDoc)
    (ha : WFDoc a = true) (hb : WFDoc b = true) :
    docLE a b = true ↔ decodeTime a ≤ decodeTime b := by
  obtain ⟨ia, sia, ra, ma, tsa⟩ := a
  obtain ⟨ib, sib, rb, mb, tsb⟩ := b
  cases tsa with
  | dt t => simp [WFDoc] at ha
  | str sa =>
    cases tsb with
    | dt t => simp [WFDoc] at hb
    | str sb =>
      simp only [WFDoc] at ha hb
      obtain ⟨ta, hta⟩ := Option.isSome_iff_exists.mp ha
      obtain ⟨tb, htb⟩ := Option.isSome_iff_exists.mp hb
      obtain ⟨hra, hla⟩ := fromisoformat_some sa ta hta
      obtain ⟨hrb, hlb⟩ := fromisoformat_some sb tb htb
      simp only [docLE, storedTimeLE, decodeTime, hta, htb, Option.getD_some]
      rw [show lexLe sa.data sb.data
            = lexLe (List.replicate sa.data.length 'T')
                (List.replicate sb.data.length 'T') from by
            rw [← hra, ← hrb]]
      rw [lexLe_replicate]
      simp only [decide_eq_true_iff]
      omega

theorem wf_toDoc (m : ChatMessage) : WFDoc m.toDoc = true := by
  simp [WFDoc, ChatMessage.toDoc, fromisoformat_isoformat]

theorem decodeTime_toDoc (m : ChatMessage) :
    decodeTime m.toDoc = m.timestamp := by
  simp [decodeTime, ChatMessage.toDoc, fromisoformat_isoformat]

theorem decodeTotal_toDoc (m : ChatMessage) : decodeTotal m.toDoc = m := by
  obtain ⟨i, sid, r, msg, t⟩ := m
  simp [decodeTotal, decodeTime, ChatMessage.toDoc, StoredDoc.toMsg,
    fromisoformat_isoformat]

theorem chat_user_insert_err (env : ChatEnv) (req : ChatRequest)
    (store : Store) (e : String) (hu : env.userInsertErr = some e) :
    chat env req store = (.error 500 ("Chat error: " ++ e), store) := by
  simp [chat, hu]

theorem chat_gateway_err (env : ChatEnv) (req : ChatRequest) (store : Store)
    (e : String) (hu : env.userInsertErr = none)
    (hg : env.gateway = .error e) :
    chat env req store =
      (.error 500 ("Chat error: " ++ e),
       store ++ [(user_msg env req).toDoc]) := by
  simp [chat, hu, hg]

theorem chat_assistant_insert_err (env : ChatEnv) (req : ChatRequest)
    (store : Store) (txt e : String) (hu : env.userInsertErr = none)
    (hg : env.gateway = .ok txt) (ha : env.assistantInsertErr = some e) :
    chat env req store =
      (.error 500 ("Chat error: " ++ e),
       store ++ [(user_msg env req).toDoc]) := by
  simp [chat, hu, hg, ha]

theorem chat_ok (env : ChatEnv) (req : ChatRequest) (store : Store)
    (txt : String) (hu : env.userInsertErr = none)
    (hg : env.gateway = .ok txt) (ha : env.assistantInsertErr = none) :
    chat env req store =
      (.ok { response := txt, session_id := req.session_id },
       store ++ [(user_msg env req).toDoc,
                 (assistant_msg env req txt).toDoc]) := by
  simp [chat, hu, hg, ha]

theorem chat_ok_inv (env : ChatEnv) (req : ChatRequest) (store : Store)
    (resp : ChatResponse) (h : (chat env req store).1 = ChatResult.ok resp) :
    ∃ txt, env.userInsertErr = none ∧ env.gateway = Except.ok txt ∧
      env.assistantInsertErr = none ∧
      resp = { response := txt, session_id := req.session_id } := by
  cases hu : env.userInsertErr with
  | some e => rw [chat_user_insert_err env req store e hu] at h; exact absurd h (by simp)
  | none =>
    cases hg : env.gateway with
    | error e => rw [chat_gateway_err env req store e hu hg] at h; exact absurd h (by simp)
    | ok txt =>
      cases ha : env.assistantInsertErr with
      | some e =>
        rw [chat_assistant_insert_err env req store txt e hu hg ha] at h
        exact absurd h (by simp)
      | none =>
        rw [chat_ok env req store txt hu hg ha] at h
        refine ⟨txt, rfl, rfl, rfl, ?_⟩
        exact (ChatResult.ok.inj h).symm

theorem chat_shape (env : ChatEnv) (req : ChatRequest) (store : Store) :
    ∃ ms : List ChatMessage,
      (chat env req store).2 = store ++ ms.map ChatMessage.toDoc ∧
      ∀ m ∈ ms, m.session_id = req.session_id := by
  cases hu : env.userInsertErr with
  | some e =>
    refine ⟨[], ?_, ?_⟩
    · rw [chat_user_insert_err env req store e hu]; simp
    · intro m hm; simp at hm
  | none =>
    cases hg : env.gateway with
    | error e =>
      refine ⟨[user_msg env req], ?_, ?_⟩
      · rw [chat_gateway_err env req store e hu hg]; simp
      · intro m hm
        rw [List.mem_singleton] at hm
        subst hm; rfl
    | ok txt =>
      cases ha : env.assistantInsertErr with
      | some e =>
        refine ⟨[user_msg env req], ?_, ?_⟩
        · rw [chat_assistant_insert_err env req store txt e hu hg ha]; simp
        · intro m hm
          rw [List.mem_singleton] at hm
          subst hm; rfl
      | none =>
        refine ⟨[user_msg env req, assistant_msg env req txt], ?_, ?_⟩
        · rw [chat_ok env req store txt hu hg ha]; simp
        · intro m hm
          rcases List.mem_cons.mp hm with rfl | hm
          · rfl
          · rw [List.mem_singleton] at hm
            subst hm; rfl

theorem chatEndpoint_shape (env : ChatEnv) (raw : RawChatRequest)
    (store : Store) :
    ∃ ms : List ChatMessage,
      (chatEndpoint env raw store).2 = store ++ ms.map ChatMessage.toDoc := by
  unfold chatEndpoint
  cases hp : parseChatRequest raw with
  | error e => exact ⟨[], by simp⟩
  | ok req =>
    obtain ⟨ms, h1, -⟩ := chat_shape env req store
    exact ⟨ms, h1⟩

theorem reachable_wf (s : Store) (h : Reachable s) : WFStore s := by
  induction h with
  | init => intro d hd; simp at hd
  | step_chat env raw hr ih =>
    intro d hd
    obtain ⟨ms, hms⟩ := chatEndpoint_shape env raw _
    rw [hms] at hd
    rcases List.mem_append.mp hd with hd | hd
    · exact ih d hd
    · obtain ⟨m, _, rfl⟩ := List.mem_map.mp hd
      exact wf_toDoc m
  | step_delete sid hr ih =>
    intro d hd
    exact ih d (List.mem_of_mem_filter hd)

theorem get_chat_history_of_wf (sid : String) (store : Store)
    (h : WFStore store) :
    get_chat_history sid store =
      .ok ((((store.filter fun d => d.session_id == sid).mergeSort
        docLE).take 1000).map decodeTotal) := by
  unfold get_chat_history
  apply mapM_decode
  intro d hd
  have hd1 : d ∈ (store.filter fun d => d.session_id == sid).mergeSort docLE :=
    List.mem_of_mem_take hd
  have hd2 : d ∈ store.filter fun d => d.session_id == sid :=
    List.mem_mergeSort.mp hd1
  exact h d (List.mem_of_mem_filter hd2)

theorem history_result_sorted (sid : String) (store : Store)
    (h : WFStore store) :
    ((((store.filter fun d => d.session_id == sid).mergeSort
        docLE).take 1000).map decodeTotal).Pairwise
      (fun a b => a.timestamp ≤ b.timestamp) := by
  have hs : ((store.filter fun d => d.session_id == sid).mergeSort
      docLE).Pairwise (fun a b => docLE a b = true) :=
    List.sorted_mergeSort docLE_trans docLE_total _
  have ht : ((((store.filter fun d => d.session_id == sid).mergeSort
      docLE).take 1000)).Pairwise (fun a b => docLE a b = true) :=
    hs.sublist (List.take_sublist _ _)
  apply List.pairwise_map.mpr
  apply ht.imp_of_mem
  intro a b hma hmb hab
  have hwa : WFDoc a = true := by
    have := List.mem_mergeSort.mp (List.mem_of_mem_take hma)
    exact h a (List.mem_of_mem_filter this)
  have hwb : WFDoc b = true := by
    have := List.mem_mergeSort.mp (List.mem_of_mem_take hmb)
    exact h b (List.mem_of_mem_filter this)
  exact (docLE_iff_of_wf a b hwa hwb).mp hab

theorem isoformat_fromisoformat (s : String) (t : Nat)
    (h : fromisoformat s = some t) : isoformat t = s := by
  obtain ⟨hrep, hlen⟩ := fromisoformat_some s t h
  obtain ⟨l⟩ := s
  have hl : l = List.replicate (t + 1) 'T' := by
    rw [← hlen]
    exact hrep
  rw [isoformat, hl]

theorem parse_fails (sid msg : Option JsonField)
    (h : sid = none ∨ sid = some JsonField.otherVal ∨
         msg = none ∨ msg = some JsonField.otherVal) :
    parseChatRequest { session_id := sid, message := msg }
      = .error "validation error" := by
  rcases h with rfl | rfl | rfl | rfl
  · cases msg with
    | none => rfl
    | some f => cases f <;> rfl
  · cases msg with
    | none => rfl
    | some f => cases f <;> rfl
  · cases sid with
    | none => rfl
    | some f => cases f <;> rfl
  · cases sid with
    | none => rfl
    | some f => cases f <;> rfl

/-- C1: for every valid `(session_id, message)` request, a successful
`POST /chat` appends exactly two new documents to the store for that
session — first a `role="user"` document carrying the input message,
then a `role="assistant"` document, both carrying the input
`session_id` — and (given that the clock readings of the request are
monotone) the user document's timestamp is at most the assistant
document's. -/
theorem chat_success_appends_two_turns (env : ChatEnv) (req : ChatRequest)
    (store : Store) (resp : ChatResponse)
    (hok : (chat env req store).1 = ChatResult.ok resp)
    (hclock : env.userTime ≤ env.assistantTime) :
    ∃ udoc adoc,
      (chat env req store).2 = store ++ [udoc, adoc] ∧
      udoc.role = "user" ∧ udoc.message = req.message ∧
      udoc.session_id = req.session_id ∧
      adoc.role = "assistant" ∧ adoc.session_id = req.session_id ∧
      decodeTime udoc ≤ decodeTime adoc := by
  obtain ⟨txt, hu, hg, ha, -⟩ := chat_ok_inv env req store resp hok
  refine ⟨(user_msg env req).toDoc, (assistant_msg env req txt).toDoc,
    ?_, rfl, rfl, rfl, rfl, rfl, ?_⟩
  · rw [chat_ok env req store txt hu hg ha]
  · rw [decodeTime_toDoc, decodeTime_toDoc]
    exact hclock

theorem chat_success_appends_two_turns_witness :
    ∃ udoc adoc,
      (chat envOK reqHello []).2 = [] ++ [udoc, adoc] ∧
      udoc.role = "user" ∧ udoc.message = reqHello.message ∧
      udoc.session_id = reqHello.session_id ∧
      adoc.role = "assistant" ∧ adoc.session_id = reqHello.session_id ∧
      decodeTime udoc ≤ decodeTime adoc :=
  chat_success_appends_two_turns envOK reqHello []
    { response := "ans", session_id := "s" } (by decide) (by decide)

/-- C2 counterexample: a request whose `session_id` and `message` are
both the empty string is not rejected — validation passes, the handler
runs, the gateway is invoked and two documents are written, so the
claim "empty fields fail fast with a ValidationError and no side
effects" is false on the code. -/
theorem empty_fields_accepted :
    (chatEndpoint envOK
        { session_id := some (.strVal ""), message := some (.strVal "") }
        []).1
      = ChatResult.ok { response := "ans", session_id := "" } ∧
    (chatEndpoint envOK
        { session_id := some (.strVal ""), message := some (.strVal "") }
        []).2 ≠ [] := by
  constructor
  · rfl
  · decide

/-- C2 (amended): a chat request in which `session_id` or `message` is
missing or is not a string fails with a ValidationError (FastAPI 422)
before the handler body runs: the store is untouched and the result
does not depend on the environment, so neither the store nor the
Completion Gateway is ever reached.  (Empty strings, however, pass
the pydantic validation `session_id: str; message: str` and are
processed normally.) -/
theorem validation_failure_no_side_effects (env : ChatEnv)
    (raw : RawChatRequest) (store : Store)
    (h : raw.session_id = none ∨ raw.session_id = some JsonField.otherVal ∨
         raw.message = none ∨ raw.message = some JsonField.otherVal) :
    chatEndpoint env raw store
      = (ChatResult.error 422 "validation error", store) := by
  obtain ⟨sid, msg⟩ := raw
  unfold chatEndpoint
  rw [parse_fails sid msg h]

theorem validation_failure_no_side_effects_witness :
    chatEndpoint envOK
        { session_id := none, message := some (JsonField.strVal "x") }
        demoStore
      = (ChatResult.error 422 "validation error", demoStore) :=
  validation_failure_no_side_effects envOK
    { session_id := none, message := some (JsonField.strVal "x") }
    demoStore (Or.inl rfl)

/-- C5: when the user turn was persisted and the Completion Gateway
call then fails, the request reports a non-200 failure (HTTP 500) to
the caller, while the store keeps exactly the user turn from that
attempt — no assistant turn is written and nothing is rolled back. -/
theorem gateway_failure_preserves_user_turn (env : ChatEnv)
    (req : ChatRequest) (store : Store) (e : String)
    (hu : env.userInsertErr = none) (hg : env.gateway = Except.error e) :
    (chat env req store).1 = ChatResult.error 500 ("Chat error: " ++ e) ∧
    ∃ udoc, (chat env req store).2 = store ++ [udoc] ∧
      udoc.role = "user" ∧ udoc.message = req.message ∧
      udoc.session_id = req.session_id := by
  rw [chat_gateway_err env req store e hu hg]
  exact ⟨rfl, (user_msg env req).toDoc, rfl, rfl, rfl, rfl⟩

theorem gateway_failure_preserves_user_turn_witness :
    (chat envGwFail reqHello []).1
        = ChatResult.error 500 ("Chat error: " ++ "provider down") ∧
    ∃ udoc, (chat envGwFail reqHello []).2 = [] ++ [udoc] ∧
      udoc.role = "user" ∧ udoc.message = reqHello.message ∧
      udoc.session_id = reqHello.session_id :=
  gateway_failure_preserves_user_turn envGwFail reqHello [] "provider down"
    (by decide) (by decide)

/-- C6: when the completion succeeds but the insert of the assistant
turn fails, the whole request fails with a storage-caused 500 — the
completion text is never returned to the caller (persist-before-respond
ordering), and the store keeps only the user turn of that attempt. -/
theorem assistant_persist_failure_fatal (env : ChatEnv)
    (req : ChatRequest) (store : Store) (txt e : String)
    (hu : env.userInsertErr = none) (hg : env.gateway = Except.ok txt)
    (ha : env.assistantInsertErr = some e) :
    (chat env req store).1 = ChatResult.error 500 ("Chat error: " ++ e) ∧
    (∀ resp, (chat env req store).1 ≠ ChatResult.ok resp) ∧
    ∃ udoc, (chat env req store).2 = store ++ [udoc] ∧
      udoc.role = "user" := by
  rw [chat_assistant_insert_err env req store txt e hu hg ha]
  refine ⟨rfl, ?_, (user_msg env req).toDoc, rfl, rfl⟩
  intro resp h
  exact ChatResult.noConfusion h

theorem assistant_persist_failure_fatal_witness :
    (chat envStFail reqHello []).1
        = ChatResult.error 500 ("Chat error: " ++ "disk full") ∧
    (∀ resp, (chat envStFail reqHello []).1 ≠ ChatResult.ok resp) ∧
    ∃ udoc, (chat envStFail reqHello []).2 = [] ++ [udoc] ∧
      udoc.role = "user" :=
  assistant_persist_failure_fatal envStFail reqHello [] "ans" "disk full"
    (by decide) (by decide) (by decide)

/-- C3: for every session id, the history endpoint on a store of
program-produced documents returns (never errors) the messages of that
session sorted ascending by timestamp, capped at 1000 entries, and
returns the empty sequence when no document of that session exists.
Completeness: every stored document of the session appears in the
result (decoded), and — whenever the session is within the 1000-entry
cap — the result is exactly the session's stored documents, decoded,
up to the sort's reordering. -/
theorem listBySession_sorted_bounded_total (sid : String) (store : Store)
    (hwf : WFStore store) :
    ∃ msgs, get_chat_history sid store = Except.ok msgs ∧
      msgs.Pairwise (fun a b => a.timestamp ≤ b.timestamp) ∧
      msgs.length ≤ 1000 ∧
      (∀ m ∈ msgs, m.session_id = sid) ∧
      (∀ d ∈ store, d.session_id = sid →
        (store.filter fun d => d.session_id == sid).length ≤ 1000 →
        decodeTotal d ∈ msgs) ∧
      ((store.filter fun d => d.session_id == sid).length ≤ 1000 →
        msgs.Perm ((store.filter fun d => d.session_id == sid).map
          decodeTotal)) ∧
      ((∀ d ∈ store, d.session_id ≠ sid) → msgs = []) := by
  refine ⟨_, get_chat_history_of_wf sid store hwf,
    history_result_sorted sid store hwf, ?_, ?_, ?_, ?_, ?_⟩
  · rw [List.length_map]
    exact List.length_take_le _ _
  · intro m hm
    obtain ⟨d, hd, rfl⟩ := List.mem_map.mp hm
    have hmem : d ∈ store.filter fun d => d.session_id == sid :=
      List.mem_mergeSort.mp (List.mem_of_mem_take hd)
    have := (List.mem_filter.mp hmem).2
    exact beq_iff_eq.mp this
  · intro d hd hds hcap
    have h1 : ((store.filter fun d => d.session_id == sid).mergeSort
        docLE).length ≤ 1000 := by
      rw [List.length_mergeSort]
      exact hcap
    rw [List.take_of_length_le h1]
    exact List.mem_map_of_mem decodeTotal
      (List.mem_mergeSort.mpr (List.mem_filter.mpr ⟨hd, by simp [hds]⟩))
  · intro hcap
    have h1 : ((store.filter fun d => d.session_id == sid).mergeSort
        docLE).length ≤ 1000 := by
      rw [List.length_mergeSort]
      exact hcap
    rw [List.take_of_length_le h1]
    exact (List.mergeSort_perm _ _).map decodeTotal
  · intro hnone
    have hfil : (store.filter fun d => d.session_id == sid) = [] := by
      rw [List.filter_eq_nil_iff]
      intro d hd
      simp [hnone d hd]
    rw [hfil]
    simp

theorem listBySession_sorted_bounded_total_witness :
    ∃ msgs, get_chat_history "s" demoStore = Except.ok msgs ∧
      msgs.Pairwise (fun a b => a.timestamp ≤ b.timestamp) ∧
      msgs.length ≤ 1000 ∧
      (∀ m ∈ msgs, m.session_id = "s") ∧
      (∀ d ∈ demoStore, d.session_id = "s" →
        (demoStore.filter fun d => d.session_id == "s").length ≤ 1000 →
        decodeTotal d ∈ msgs) ∧
      ((demoStore.filter fun d => d.session_id == "s").length ≤ 1000 →
        msgs.Perm ((demoStore.filter fun d => d.session_id == "s").map
          decodeTotal)) ∧
      ((∀ d ∈ demoStore, d.session_id ≠ "s") → msgs = []) :=
  listBySession_sorted_bounded_total "s" demoStore (by decide)

/-- C4: deleting a session that holds exactly K documents reports
`deleted_count = K`; an immediately repeated delete of the same session
reports `deleted_count = 0` with no error and leaves the store as it
was; and a following history read of that session returns the empty
sequence. -/
theorem deleteBySession_count_idempotent (sid : String) (store : Store)
    (K : Nat)
    (hK : (store.filter fun d => d.session_id == sid).length = K) :
    (clear_chat_history sid store).1
        = { deleted_count := K, session_id := sid } ∧
      clear_chat_history sid (clear_chat_history sid store).2
        = ({ deleted_count := 0, session_id := sid },
           (clear_chat_history sid store).2) ∧
      get_chat_history sid (clear_chat_history sid store).2
        = Except.ok [] := by
  have hre : ((store.filter fun d => !(d.session_id == sid)).filter
      fun d => d.session_id == sid) = [] := by
    rw [List.filter_filter]
    simp
  refine ⟨?_, ?_, ?_⟩
  · simp [clear_chat_history, hK]
  · simp only [clear_chat_history, hre, List.length_nil,
      List.filter_filter]
    simp
  · simp only [get_chat_history, clear_chat_history, hre,
      List.mergeSort_nil, List.take_nil]
    rfl

theorem deleteBySession_count_idempotent_witness :
    (clear_chat_history "s" demoStore).1
        = { deleted_count := 2, session_id := "s" } ∧
      clear_chat_history "s" (clear_chat_history "s" demoStore).2
        = ({ deleted_count := 0, session_id := "s" },
           (clear_chat_history "s" demoStore).2) ∧
      get_chat_history "s" (clear_chat_history "s" demoStore).2
        = Except.ok [] :=
  deleteBySession_count_idempotent "s" demoStore 2 (by decide)

/-- C7: for every message text (Unicode or other content), a message
submitted through a successful `POST /chat` and then retrieved through
`GET /chat/history/{session_id}` comes back with a `message` field
identical to the submitted text (given that the session stays within
the 1000-entry read cap, so the new turn is actually returned). -/
theorem message_roundtrip_identity (env : ChatEnv) (req : ChatRequest)
    (store : Store) (resp : ChatResponse)
    (hwf : WFStore store)
    (hok : (chat env req store).1 = ChatResult.ok resp)
    (hroom :
      (store.filter fun d => d.session_id == req.session_id).length ≤ 998) :
    ∃ msgs, get_chat_history req.session_id (chat env req store).2
        = Except.ok msgs ∧
      ∃ m ∈ msgs, m.role = "user" ∧ m.id = env.userId ∧
        m.message = req.message := by
  obtain ⟨txt, hu, hg, ha, -⟩ := chat_ok_inv env req store resp hok
  have hst : (chat env req store).2
      = store ++ [(user_msg env req).toDoc,
                  (assistant_msg env req txt).toDoc] := by
    rw [chat_ok env req store txt hu hg ha]
  rw [hst]
  have hwf2 : WFStore (store ++ [(user_msg env req).toDoc,
      (assistant_msg env req txt).toDoc]) := by
    intro d hd
    rcases List.mem_append.mp hd with hd | hd
    · exact hwf d hd
    · rcases List.mem_cons.mp hd with rfl | hd
      · exact wf_toDoc _
      · rw [List.mem_singleton] at hd
        subst hd
        exact wf_toDoc _
  rw [get_chat_history_of_wf _ _ hwf2]
  refine ⟨_, rfl, ?_⟩
  have hfl : ((store ++ [(user_msg env req).toDoc,
        (assistant_msg env req txt).toDoc]).filter
        fun d => d.session_id == req.session_id)
      = (store.filter fun d => d.session_id == req.session_id)
        ++ [(user_msg env req).toDoc, (assistant_msg env req txt).toDoc] := by
    rw [List.filter_append]
    congr 1
    simp [user_msg, assistant_msg, ChatMessage.toDoc]
  have hlen : (((store ++ [(user_msg env req).toDoc,
        (assistant_msg env req txt).toDoc]).filter
        fun d => d.session_id == req.session_id).mergeSort docLE).length
      ≤ 1000 := by
    rw [List.length_mergeSort, hfl, List.length_append]
    simp only [List.length_cons, List.length_nil]
    omega
  rw [List.take_of_length_le hlen]
  refine ⟨user_msg env req, ?_, rfl, rfl, rfl⟩
  apply List.mem_map.mpr
  refine ⟨(user_msg env req).toDoc, ?_, decodeTotal_toDoc _⟩
  rw [List.mem_mergeSort, hfl]
  simp

theorem message_roundtrip_identity_witness :
    ∃ msgs, get_chat_history reqHello.session_id (chat envOK reqHello []).2
        = Except.ok msgs ∧
      ∃ m ∈ msgs, m.role = "user" ∧ m.id = envOK.userId ∧
        m.message = reqHello.message :=
  message_roundtrip_identity envOK reqHello []
    { response := "ans", session_id := "s" }
    (by decide) (by decide) (by decide)

/-- C8: stored messages are immutable and the store is append-only up
to bulk deletion: a chat request only ever appends freshly built
documents (the existing prefix of the store is preserved unchanged),
and the delete endpoint removes whole documents of the given session
and nothing else — its result is a sublist of the old store, every
surviving document unmodified.  (The history endpoint never writes:
`get_chat_history` does not produce a store at all.) -/
theorem store_append_only_bulk_delete (store : Store) :
    (∀ env raw, ∃ ms : List ChatMessage,
        (chatEndpoint env raw store).2 = store ++ ms.map ChatMessage.toDoc) ∧
    (∀ sid, (clear_chat_history sid store).2
        = store.filter fun d => !(d.session_id == sid)) ∧
    (∀ sid, List.Sublist (clear_chat_history sid store).2 store) :=
  ⟨fun env raw => chatEndpoint_shape env raw store,
   fun _ => rfl,
   fun _ => List.filter_sublist _⟩

/-- C9: every operation is frame-scoped to the session id it is given:
a chat append for one session and a bulk delete of one session both
leave the documents of every other session exactly as they were. -/
theorem operations_frame_scoped (store : Store) (t : String) :
    (∀ env req, req.session_id ≠ t →
      ((chat env req store).2.filter fun d => d.session_id == t)
        = store.filter fun d => d.session_id == t) ∧
    (∀ s, s ≠ t →
      ((clear_chat_history s store).2.filter fun d => d.session_id == t)
        = store.filter fun d => d.session_id == t) := by
  constructor
  · intro env req hne
    obtain ⟨ms, hms, hsid⟩ := chat_shape env req store
    rw [hms, List.filter_append]
    have hz : ((ms.map ChatMessage.toDoc).filter
        fun d => d.session_id == t) = [] := by
      rw [List.filter_eq_nil_iff]
      intro d hd
      obtain ⟨m, hm, rfl⟩ := List.mem_map.mp hd
      simp [ChatMessage.toDoc, hsid m hm, hne]
    rw [hz, List.append_nil]
  · intro s hs
    show ((store.filter fun d => !(d.session_id == s)).filter
        fun d => d.session_id == t) = _
    rw [List.filter_filter]
    apply List.filter_congr
    intro d hd
    by_cases hdt : d.session_id = t
    · have hds : (d.session_id == s) = false := by
        rw [beq_eq_false_iff_ne, hdt]
        exact fun h => hs h.symm
      simp [hdt, hds]
      exact fun h => hs h.symm
    · simp [hdt]

theorem operations_frame_scoped_witness :
    ((chat envOK reqHello demoStore).2.filter fun d => d.session_id == "t")
      = demoStore.filter fun d => d.session_id == "t" :=
  (operations_frame_scoped demoStore "t").1 envOK reqHello (by decide)

/-- C10: on every store this program can produce, every stored
timestamp is an `isoformat` string, so the history endpoint's
`fromisoformat` conversion never fails and each returned message's
timestamp re-encodes to exactly the string stored at creation — i.e.
the parse recovers exactly the datetime assigned when the turn was
written, and the parse-error branch is unreachable. -/
theorem history_parse_total_on_reachable (store : Store)
    (h : Reachable store) (sid : String) :
    ∃ msgs, get_chat_history sid store = Except.ok msgs ∧
      ∀ m ∈ msgs, StoredTime.str (isoformat m.timestamp)
        ∈ store.map StoredDoc.timestamp := by
  have hwf := reachable_wf store h
  rw [get_chat_history_of_wf sid store hwf]
  refine ⟨_, rfl, ?_⟩
  intro m hm
  obtain ⟨d, hd, rfl⟩ := List.mem_map.mp hm
  have hdm : d ∈ store :=
    List.mem_of_mem_filter (List.mem_mergeSort.mp (List.mem_of_mem_take hd))
  have hwfd := hwf d hdm
  obtain ⟨i, sd, r, msg, ts⟩ := d
  cases ts with
  | dt t2 => simp [WFDoc] at hwfd
  | str s =>
    simp only [WFDoc] at hwfd
    obtain ⟨t2, ht2⟩ := Option.isSome_iff_exists.mp hwfd
    have hiso := isoformat_fromisoformat s t2 ht2
    have hdec : decodeTotal ⟨i, sd, r, msg, .str s⟩
        = (⟨i, sd, r, msg, .str s⟩ : StoredDoc).toMsg t2 := by
      simp [decodeTotal, decodeTime, ht2]
    rw [hdec]
    rw [show ((⟨i, sd, r, msg, StoredTime.str s⟩ : StoredDoc).toMsg
      t2).timestamp = t2 from rfl]
    rw [hiso]
    exact List.mem_map_of_mem StoredDoc.timestamp hdm

theorem history_parse_total_on_reachable_witness :
    ∃ msgs, get_chat_history "s" (chatEndpoint envOK rawHello []).2
        = Except.ok msgs ∧
      ∀ m ∈ msgs, StoredTime.str (isoformat m.timestamp)
        ∈ ((chatEndpoint envOK rawHello []).2).map StoredDoc.timestamp :=
  history_parse_total_on_reachable (chatEndpoint envOK rawHello []).2
    (Reachable.step_chat envOK rawHello Reachable.init) "s"
